import Mathlib

/-!
Shallow embedding of the report aggregation layer of `src/data_processor.py`
(the `DataProcessor` methods `get_all_reports`, `get_dashboard_stats`,
`get_weekly_summary`, `get_performance_trend`, `get_telecaller_performance`
and `get_country_distribution`), together with theorems about the frozen
claims on that layer.

Modelling conventions:
* A pandas `DataFrame` is a `Schema` (recording which columns are present)
  plus a list of rows.  Cells of absent columns are phantom: no operation
  reads them, because every column access in the source is guarded by a
  column-presence test and those guards are reproduced faithfully; where the
  source has no guard (the `groupby`/`agg` calls) the embedding returns an
  `Except.error`, modelling the `KeyError` pandas raises there.
* Timestamps are integers counted in minutes; `dayOf` projects a timestamp
  to its calendar day exactly as `Series.dt.date` does.
* `pd.to_datetime` with coercion of failures is modelled by storing the parse
  result in the raw cell: `none` is `NaT`.  Likewise `pd.to_numeric` with
  coercion: a raw numeric cell is `none` when unparseable, and the
  `fillna(0)` step turns it into `0`.
* Python float arithmetic on the derived rates is modelled by exact
  rationals; pandas columnwise division by zero, which yields infinities and
  `NaN` instead of raising, is modelled by `PyFloat`.
-/

namespace ReportDashboard

/-- Values produced by pandas float arithmetic: a finite rational, one of the
two infinities, or `NaN`.  Dividing a positive integer cell by zero in pandas
yields `inf`, a negative one `-inf`, and `0 / 0` yields `NaN`; none of these
raises an exception. -/
inductive PyFloat where
  | val (q : ℚ)
  | inf
  | ninf
  | nan
deriving DecidableEq

/-- Minutes per calendar day; timestamps are counted in minutes. -/
def minutesPerDay : Int := 1440

/-- Calendar day of a timestamp (floor division, correct also for timestamps
before the epoch); this is the `Series.dt.date` projection. -/
def dayOf (t : Int) : Int := Int.fdiv t minutesPerDay

/-- Which columns are present in the snapshot `DataFrame`.  The backing store
owns the schema, so any subset of the columns may be absent; the renaming at
`data_processor.py:444-461` maps each present column to itself. -/
structure Schema where
  hasDate : Bool
  hasTelecaller : Bool
  hasTotalCalls : Bool
  hasNewData : Bool
  hasCrmData : Bool
  hasFairData : Bool
  hasVisitedStudents : Bool
  hasVideo : Bool
  hasCountryData : Bool
deriving DecidableEq

/-- True when none of the modelled columns is present (a frame with rows but
no columns is `empty` in pandas). -/
def Schema.noCols (s : Schema) : Bool :=
  !(s.hasDate || s.hasTelecaller || s.hasTotalCalls || s.hasNewData || s.hasCrmData
    || s.hasFairData || s.hasVisitedStudents || s.hasVideo || s.hasCountryData)

/-- A raw snapshot row as delivered by the storage collaborator.  `date`
holds the result of parsing the `Date` cell (`none` is `NaT`); the five
numeric cells hold the result of numeric parsing (`none` when unparseable);
`countryData` is `none` for a missing (`NaN`) cell. -/
structure RawReport where
  date : Option Int
  telecaller : String
  totalCalls : Option Int
  newData : Option Int
  crmData : Option Int
  fairData : Option Int
  visitedStudents : Option Int
  video : String
  countryData : Option String
deriving DecidableEq

/-- A raw snapshot: schema plus rows. -/
structure RawFrame where
  schema : Schema
  rows : List RawReport
deriving DecidableEq

/-- `DataFrame.empty` for the raw snapshot: no rows or no columns. -/
def RawFrame.isEmpty (df : RawFrame) : Bool := df.rows.isEmpty || df.schema.noCols

/-- A row after the cleaning performed by `get_all_reports`: numeric cells
are integers (non-numeric cells were coerced to `0`); the date may still be
`none` when the `Date` column is absent and the drop step never ran. -/
structure Report where
  date : Option Int
  telecaller : String
  totalCalls : Int
  newData : Int
  crmData : Int
  fairData : Int
  visitedStudents : Int
  video : String
  countryData : Option String
deriving DecidableEq

/-- A cleaned working frame: schema plus cleaned rows. -/
structure Frame where
  schema : Schema
  rows : List Report
deriving DecidableEq

/-- `DataFrame.empty` for the working frame. -/
def Frame.isEmpty (df : Frame) : Bool := df.rows.isEmpty || df.schema.noCols

/-- The per-row effect of the numeric coercion loop at
`data_processor.py:469-472`: each numeric cell becomes its parsed value, or
`0` when unparseable. -/
def cleanReport (r : RawReport) : Report :=
  { date := r.date
    telecaller := r.telecaller
    totalCalls := r.totalCalls.getD 0
    newData := r.newData.getD 0
    crmData := r.crmData.getD 0
    fairData := r.fairData.getD 0
    visitedStudents := r.visitedStudents.getD 0
    video := r.video
    countryData := r.countryData }

/-- Calendar day of a cleaned row (`df.Date.dt.date`); `none` for a missing
date. -/
def dayKey (r : Report) : Option Int := r.date.map dayOf

/-- Insertion step of the insertion sort below. -/
def insertSorted (le : α → α → Bool) (a : α) : List α → List α
  | [] => [a]
  | b :: l => if le a b then a :: b :: l else b :: insertSorted le a l

/-- Deterministic comparison sort modelling `DataFrame.sort_values` and the
ascending key order of `groupby`.  The source sorts with an unstable
quicksort whose tie order is unobservable to the claims, so any comparison
sort is an adequate model. -/
def sortBy (le : α → α → Bool) : List α → List α
  | [] => []
  | a :: l => insertSorted le a (sortBy le l)

/-- Distinct values of a list (keeping the last occurrence of each), used to
model `Series.unique`, `groupby` key sets and `value_counts` key sets; only
the set of members is ever observed by the claims. -/
def dedupL [DecidableEq α] : List α → List α
  | [] => []
  | a :: l => if a ∈ l then dedupL l else a :: dedupL l

/-- Round to the nearest integer with ties to even, the rounding of Python
round. -/
def rte (q : ℚ) : Int :=
  let n := ⌊q⌋
  if q - n < 1 / 2 then n
  else if 1 / 2 < q - n then n + 1
  else if n % 2 = 0 then n else n + 1

/-- Python round with one decimal place. -/
def round1 (q : ℚ) : ℚ := (rte (10 * q) : ℚ) / 10

/-- `DataProcessor.get_all_reports` (`data_processor.py:435-492`) called with
no filter argument, as every aggregation operation calls it: an empty frame
is returned as is; otherwise rows whose `Date` cell failed to parse are
dropped (when that column exists), the numeric columns are coerced, and the
frame is sorted by date descending.  The column renaming of lines 444-461 is
the identity and is omitted.  For an empty frame the source returns the raw
frame unchanged; its cells are never read downstream, so it is represented
by the cell-coerced rows, which is observationally identical. -/
def get_all_reports (raw : RawFrame) : Frame :=
  if raw.isEmpty then ⟨raw.schema, raw.rows.map cleanReport⟩
  else
    let rows1 := if raw.schema.hasDate then raw.rows.filter (fun r => r.date.isSome) else raw.rows
    let rows2 := rows1.map cleanReport
    if !rows2.isEmpty && raw.schema.hasDate then
      ⟨raw.schema, sortBy (fun a b => decide (b.date.getD 0 ≤ a.date.getD 0)) rows2⟩
    else ⟨raw.schema, rows2⟩

/-- The telecaller narrowing step shared by the operations (for instance
`data_processor.py:522-523`): applied only when the argument is truthy (not
`None`, not the empty string) and the `Telecaller` column exists. -/
def filterTelecaller (df : Frame) (telecaller : Option String) : Frame :=
  match telecaller with
  | none => df
  | some t =>
    if (t != "") && df.schema.hasTelecaller then
      ⟨df.schema, df.rows.filter (fun r => r.telecaller == t)⟩
    else df

/-- The mapping returned by `get_dashboard_stats`
(`data_processor.py:561-574`).  Sums and counts are integers; the two
averages and the two rates carry the exact rational value of the float
arithmetic.  The source emits the non-empty-country count under both the
`country_data` and the `country_data_count` keys. -/
structure Stats where
  total_calls : Int
  new_data : Int
  crm_data : Int
  video_activities : Int
  country_data : Int
  country_data_count : Int
  fair_data : Int
  visited_students : Int
  avg_calls_per_day : ℚ
  avg_new_data_per_day : ℚ
  crm_completion_rate : ℚ
  conversion_rate : ℚ
deriving DecidableEq

/-- The all-zero mapping returned for an empty snapshot
(`data_processor.py:514-520`). -/
def zeroStats : Stats := ⟨0, 0, 0, 0, 0, 0, 0, 0, 0, 0, 0, 0⟩

/-- The time-range window applied by `get_dashboard_stats`
(`data_processor.py:525-538`): an if-chain on the bucket name comparing the
calendar day of each record with today; an unrecognised bucket name leaves
the frame unchanged.  Rows without a date fail every comparison, as `NaT`
does in pandas. -/
def bucketFilterRows (rows : List Report) (time_range : String) (today : Int) : List Report :=
  if time_range == "today" then
    rows.filter (fun r => dayKey r == some today)
  else if time_range == "yesterday" then
    rows.filter (fun r => dayKey r == some (today - 1))
  else if time_range == "week" then
    rows.filter (fun r => match dayKey r with
      | some d => decide (today - 7 ≤ d)
      | none => false)
  else if time_range == "month" then
    rows.filter (fun r => match dayKey r with
      | some d => decide (today - 30 ≤ d)
      | none => false)
  else rows

/-- Lines 540-574 of `data_processor.py`: the statistics computed from the
already filtered frame.  Every column access is guarded by a conjunction of
a non-emptiness test and a column-presence test, exactly as in the source;
`num_days` defaults to `1` when the frame is empty or has no date column. -/
def dashStatsOf (df : Frame) : Stats :=
  let total_calls : Int := if !df.isEmpty && df.schema.hasTotalCalls then (df.rows.map (fun r => r.totalCalls)).sum else 0
  let new_data : Int := if !df.isEmpty && df.schema.hasNewData then (df.rows.map (fun r => r.newData)).sum else 0
  let crm_data : Int := if !df.isEmpty && df.schema.hasCrmData then (df.rows.map (fun r => r.crmData)).sum else 0
  let video_activities : Int := if !df.isEmpty && df.schema.hasVideo then ((df.rows.filter (fun r => r.video == "Yes")).length : Int) else 0
  let country_data_count : Int :=
    if !df.isEmpty && df.schema.hasCountryData then
      ((df.rows.filter (fun r => match r.countryData with
        | some c => c != ""
        | none => false)).length : Int)
    else 0
  let fair_data : Int := if !df.isEmpty && df.schema.hasFairData then (df.rows.map (fun r => r.fairData)).sum else 0
  let visited_students : Int := if !df.isEmpty && df.schema.hasVisitedStudents then (df.rows.map (fun r => r.visitedStudents)).sum else 0
  let num_days : Int := if !df.isEmpty && df.schema.hasDate then ((dedupL (df.rows.map dayKey)).length : Int) else 1
  let avg_calls_per_day : ℚ := if 0 < num_days then (total_calls : ℚ) / (num_days : ℚ) else 0
  let avg_new_data_per_day : ℚ := if 0 < num_days then (new_data : ℚ) / (num_days : ℚ) else 0
  let crm_completion_rate : ℚ := if 0 < total_calls then (crm_data : ℚ) / (total_calls : ℚ) * 100 else 0
  let conversion_rate : ℚ := if 0 < total_calls then (new_data : ℚ) / (total_calls : ℚ) * 100 else 0
  { total_calls := total_calls
    new_data := new_data
    crm_data := crm_data
    video_activities := video_activities
    country_data := country_data_count
    country_data_count := country_data_count
    fair_data := fair_data
    visited_students := visited_students
    avg_calls_per_day := round1 avg_calls_per_day
    avg_new_data_per_day := round1 avg_new_data_per_day
    crm_completion_rate := round1 crm_completion_rate
    conversion_rate := round1 conversion_rate }

/-- `DataProcessor.get_dashboard_stats` (`data_processor.py:510-574`): fetch
the working frame, return the all-zero mapping when it is empty, otherwise
narrow by telecaller and by the named time-range bucket and compute the
statistics. -/
def get_dashboard_stats (raw : RawFrame) (time_range : String) (telecaller : Option String) (now : Int) : Stats :=
  let df := get_all_reports raw
  if df.isEmpty then zeroStats
  else
    let df := filterTelecaller df telecaller
    let today := dayOf now
    let df := if df.schema.hasDate then ⟨df.schema, bucketFilterRows df.rows time_range today⟩ else df
    dashStatsOf df

/-- The inclusive timestamp window filter of `data_processor.py:590` and
`data_processor.py:621`: keep the rows whose parsed date lies between the
two bounds; a row with no date fails both comparisons, as `NaT` does. -/
def windowRows (rows : List Report) (start_date end_date : Int) : List Report :=
  rows.filter (fun r => match r.date with
    | some t => decide (start_date ≤ t ∧ t ≤ end_date)
    | none => false)

/-- One row of the trend and weekly-summary series: a calendar day and the
two metric sums for that day (the ISO date string the source adds is the
image of `day` under a fixed injective formatter and is not modelled
separately). -/
structure TrendRow where
  day : Int
  totalCalls : Int
  newData : Int
deriving DecidableEq

/-- The grouped series built at `data_processor.py:628-636`: group the
window rows by calendar day, sum the two metric columns inside each group,
and sort ascending by day (the `groupby` keys are already ascending and the
final `sort_values` keeps them so). -/
def groupTrend (kept : List Report) : List TrendRow :=
  let days := sortBy (fun a b => decide (a ≤ b)) (dedupL ((kept.filterMap (fun r => r.date)).map dayOf))
  days.map (fun d =>
    let g := kept.filter (fun r => dayKey r == some d)
    ⟨d, (g.map (fun r => r.totalCalls)).sum, (g.map (fun r => r.newData)).sum⟩)

/-- `DataProcessor.get_performance_trend` (`data_processor.py:607-636`).
The window is the inclusive timestamp interval from `now` minus the window
length to `now`.  `Except.error` models the `KeyError` that `DataFrame.agg`
raises when one of the two aggregated metric columns is absent from a
non-empty window. -/
def get_performance_trend (raw : RawFrame) (days : Int) (telecaller : Option String) (now : Int) : Except Unit (List TrendRow) :=
  let df := get_all_reports raw
  if df.isEmpty then .ok []
  else
    let df := filterTelecaller df telecaller
    let start_date := now - days * minutesPerDay
    let end_date := now
    if df.schema.hasDate then
      let kept := windowRows df.rows start_date end_date
      if kept.isEmpty then .ok []
      else if df.schema.hasTotalCalls && df.schema.hasNewData then .ok (groupTrend kept)
      else .error ()
    else .ok []

/-- `DataProcessor.get_weekly_summary` (`data_processor.py:576-605`): the
same computation as the trend with a window of seven days. -/
def get_weekly_summary (raw : RawFrame) (telecaller : Option String) (now : Int) : Except Unit (List TrendRow) :=
  let df := get_all_reports raw
  if df.isEmpty then .ok []
  else
    let df := filterTelecaller df telecaller
    let start_date := now - 7 * minutesPerDay
    let end_date := now
    if df.schema.hasDate then
      let kept := windowRows df.rows start_date end_date
      if kept.isEmpty then .ok []
      else if df.schema.hasTotalCalls && df.schema.hasNewData then .ok (groupTrend kept)
      else .error ()
    else .ok []

/-- One row of the per-telecaller rollup (`data_processor.py:652-653`). -/
structure PerfRow where
  telecaller : String
  totalCalls : Int
  newData : Int
  crmData : Int
  videoActivities : Int
  conversionRate : PyFloat
deriving DecidableEq

/-- Elementwise division of two pandas integer columns: division by zero
produces `inf`, `-inf` or `NaN` without raising; otherwise the exact
rational quotient. -/
def pyDiv (n d : Int) : PyFloat :=
  if d = 0 then (if 0 < n then .inf else if n < 0 then .ninf else .nan)
  else .val ((n : ℚ) / (d : ℚ))

/-- Multiply by 100 and round to one decimal, as applied to the quotient
column at `data_processor.py:653`; the infinities and `NaN` are fixed
points of both steps. -/
def pyMul100Round1 : PyFloat → PyFloat
  | .val q => .val (round1 (q * 100))
  | .inf => .inf
  | .ninf => .ninf
  | .nan => .nan

/-- The grouped aggregation of `data_processor.py:645-653`: one row per
distinct telecaller name with the three metric sums, the count of video
rows, and the rounded conversion-rate column.  The source yields the keys
in ascending order; the spec declares the rollup unordered and no claim
observes the key order, so the distinct-values order is used.  The
`Except.error` of the operation below models the `KeyError` raised by
`DataFrame.agg` when any of the four aggregated columns is absent while
`Telecaller` is present. -/
def rollupRows (df : Frame) : List PerfRow :=
  let keys := dedupL (df.rows.map (fun r => r.telecaller))
  keys.map (fun k =>
    let g := df.rows.filter (fun r => r.telecaller == k)
    let tc := (g.map (fun r => r.totalCalls)).sum
    let nd := (g.map (fun r => r.newData)).sum
    ⟨k, tc, nd, (g.map (fun r => r.crmData)).sum,
      ((g.filter (fun r => r.video == "Yes")).length : Int),
      pyMul100Round1 (pyDiv nd tc)⟩)

/-- `DataProcessor.get_telecaller_performance` (`data_processor.py:638-655`):
empty result when the frame is empty or has no `Telecaller` column, the
grouped rollup otherwise. -/
def get_telecaller_performance (raw : RawFrame) : Except Unit (List PerfRow) :=
  let df := get_all_reports raw
  if df.isEmpty || !df.schema.hasTelecaller then .ok []
  else if !(df.schema.hasTotalCalls && df.schema.hasNewData && df.schema.hasCrmData && df.schema.hasVideo) then .error ()
  else .ok (rollupRows df)

/-- `DataProcessor.get_country_distribution` (`data_processor.py:683-701`):
keep the rows with a present, non-blank country cell; count occurrences per
distinct value (`value_counts`, descending by count); return the mapping as
an association list. -/
def get_country_distribution (raw : RawFrame) (telecaller : Option String) : List (String × Int) :=
  let df := get_all_reports raw
  if df.isEmpty then []
  else
    let df := filterTelecaller df telecaller
    if df.schema.hasCountryData then
      let kept := df.rows.filter (fun r => match r.countryData with
        | some c => c != ""
        | none => false)
      if kept.isEmpty then []
      else
        let vals := dedupL (kept.filterMap (fun r => r.countryData))
        sortBy (fun a b => decide (b.2 ≤ a.2))
          (vals.map (fun v => (v, ((kept.filter (fun r => r.countryData == some v)).length : Int))))
    else []

/-! Lemmas about the list utilities. -/

theorem insertSorted_perm (le : α → α → Bool) (a : α) (l : List α) :
    (insertSorted le a l).Perm (a :: l) := by
  induction l with
  | nil => simp [insertSorted]
  | cons b t ih =>
    by_cases h : le a b = true
    · simp [insertSorted, h]
    · simp only [insertSorted, h, Bool.false_eq_true, if_false]
      exact (ih.cons b).trans (List.Perm.swap a b t)

theorem sortBy_perm (le : α → α → Bool) (l : List α) : (sortBy le l).Perm l := by
  induction l with
  | nil => simp [sortBy]
  | cons a t ih => exact (insertSorted_perm le a (sortBy le t)).trans (ih.cons a)

theorem mem_sortBy {le : α → α → Bool} {a : α} {l : List α} :
    a ∈ sortBy le l ↔ a ∈ l := (sortBy_perm le l).mem_iff

theorem mem_insertSorted {le : α → α → Bool} {a x : α} {l : List α} :
    x ∈ insertSorted le a l ↔ x = a ∨ x ∈ l := by
  rw [(insertSorted_perm le a l).mem_iff, List.mem_cons]

theorem pairwise_insertSorted {le : α → α → Bool}
    (htot : ∀ a b, le a b = true ∨ le b a = true)
    (htrans : ∀ a b c, le a b = true → le b c = true → le a c = true)
    {a : α} {l : List α} (h : l.Pairwise fun x y => le x y = true) :
    (insertSorted le a l).Pairwise fun x y => le x y = true := by
  induction l with
  | nil => simp [insertSorted]
  | cons b t ih =>
    rcases List.pairwise_cons.mp h with ⟨hb, ht⟩
    by_cases hab : le a b = true
    · simp only [insertSorted, hab, if_true]
      refine List.pairwise_cons.mpr ⟨?_, h⟩
      intro x hx
      rcases List.mem_cons.mp hx with rfl | hx
      · exact hab
      · exact htrans a b x hab (hb x hx)
    · simp only [insertSorted, hab, Bool.false_eq_true, if_false]
      refine List.pairwise_cons.mpr ⟨?_, ih ht⟩
      intro x hx
      rcases mem_insertSorted.mp hx with rfl | hx
      · rcases htot x b with h1 | h1
        · exact absurd h1 hab
        · exact h1
      · exact hb x hx

theorem pairwise_sortBy {le : α → α → Bool}
    (htot : ∀ a b, le a b = true ∨ le b a = true)
    (htrans : ∀ a b c, le a b = true → le b c = true → le a c = true)
    (l : List α) :
    (sortBy le l).Pairwise fun x y => le x y = true := by
  induction l with
  | nil => simp [sortBy]
  | cons a t ih => exact pairwise_insertSorted htot htrans ih

theorem mem_dedupL [DecidableEq α] {a : α} {l : List α} : a ∈ dedupL l ↔ a ∈ l := by
  induction l with
  | nil => simp [dedupL]
  | cons b t ih =>
    simp only [dedupL]
    by_cases h : b ∈ t
    · rw [if_pos h, ih, List.mem_cons]
      constructor
      · exact Or.inr
      · rintro (rfl | h2)
        · exact h
        · exact h2
    · rw [if_neg h, List.mem_cons, List.mem_cons, ih]

theorem nodup_dedupL [DecidableEq α] (l : List α) : (dedupL l).Nodup := by
  induction l with
  | nil => simp [dedupL]
  | cons b t ih =>
    simp only [dedupL]
    by_cases h : b ∈ t
    · rw [if_pos h]; exact ih
    · rw [if_neg h]
      exact List.nodup_cons.mpr ⟨fun hb => h (mem_dedupL.mp hb), ih⟩

theorem sum_map_add_distrib (l : List α) (f g : α → Int) :
    (l.map (fun a => f a + g a)).sum = (l.map f).sum + (l.map g).sum := by
  induction l with
  | nil => simp
  | cons a t ih => simp only [List.map_cons, List.sum_cons, ih]; ring

theorem sum_map_ite_single [DecidableEq β] {keys : List β} {t : β}
    (hnd : keys.Nodup) (ht : t ∈ keys) (c : Int) :
    (keys.map (fun k => if t = k then c else 0)).sum = c := by
  induction keys with
  | nil => cases ht
  | cons k ks ih =>
    rcases List.nodup_cons.mp hnd with ⟨hk, hks⟩
    by_cases h : t = k
    · subst h
      simp only [List.map_cons, List.sum_cons, if_pos rfl]
      have hz : (ks.map (fun x => if t = x then c else 0)).sum = 0 := by
        apply List.sum_eq_zero
        intro x hx
        rcases List.mem_map.mp hx with ⟨y, hy, rfl⟩
        rw [if_neg]
        intro he
        exact hk (he ▸ hy)
      rw [hz]; simp
    · rcases List.mem_cons.mp ht with rfl | ht2
      · exact absurd rfl h
      · simp only [List.map_cons, List.sum_cons, if_neg h, ih hks ht2]; ring

/-! Lemmas about the rounding function. -/

theorem rte_le (q : ℚ) : (rte q : ℚ) ≤ q + 1 / 2 := by
  have h1 : ((⌊q⌋ : Int) : ℚ) ≤ q := Int.floor_le q
  have h2 : q < ((⌊q⌋ : Int) : ℚ) + 1 := Int.lt_floor_add_one q
  simp only [rte]
  split_ifs <;> push_cast <;> linarith

theorem le_rte (q : ℚ) : q - 1 / 2 ≤ (rte q : ℚ) := by
  have h1 : ((⌊q⌋ : Int) : ℚ) ≤ q := Int.floor_le q
  have h2 : q < ((⌊q⌋ : Int) : ℚ) + 1 := Int.lt_floor_add_one q
  simp only [rte]
  split_ifs <;> push_cast <;> linarith

theorem round1_nonneg {q : ℚ} (h : 0 ≤ q) : 0 ≤ round1 q := by
  have hlow : ((-1 : Int) : ℚ) < (rte (10 * q) : ℚ) := by
    have := le_rte (10 * q)
    push_cast
    linarith
  have hint : (0 : Int) ≤ rte (10 * q) := by
    have : (-1 : Int) < rte (10 * q) := by exact_mod_cast hlow
    omega
  have : (0 : ℚ) ≤ (rte (10 * q) : ℚ) := by exact_mod_cast hint
  rw [round1]
  positivity

theorem round1_le_100 {q : ℚ} (h : q ≤ 100) : round1 q ≤ 100 := by
  have hup : (rte (10 * q) : ℚ) < ((1001 : Int) : ℚ) := by
    have := rte_le (10 * q)
    push_cast
    linarith
  have hint : rte (10 * q) ≤ (1000 : Int) := by
    have : rte (10 * q) < (1001 : Int) := by exact_mod_cast hup
    omega
  have hq : (rte (10 * q) : ℚ) ≤ 1000 := by exact_mod_cast hint
  rw [round1]
  linarith

theorem rte_intCast (m : Int) : rte ((m : ℚ)) = m := by
  simp only [rte, Int.floor_intCast, sub_self]
  norm_num

theorem round1_intCast (n : Int) : round1 ((n : ℚ)) = (n : ℚ) := by
  have h10 : (10 : ℚ) * (n : ℚ) = ((10 * n : Int) : ℚ) := by push_cast; ring
  rw [round1, h10, rte_intCast]
  push_cast
  ring

theorem round1_zero : round1 0 = 0 := by
  simpa using round1_intCast 0

/-! Lemmas about the retrieval and narrowing steps. -/

theorem schema_get_all_reports (raw : RawFrame) : (get_all_reports raw).schema = raw.schema := by
  simp only [get_all_reports]
  split_ifs <;> rfl

theorem schema_filterTelecaller (df : Frame) (tel : Option String) :
    (filterTelecaller df tel).schema = df.schema := by
  rcases tel with _ | t
  · rfl
  · simp only [filterTelecaller]
    split_ifs <;> rfl

theorem mem_rows_get_all_reports {raw : RawFrame} {r : Report}
    (h : r ∈ (get_all_reports raw).rows) : ∃ r0 ∈ raw.rows, r = cleanReport r0 := by
  have hsub : ∀ rows1 : List RawReport, (∀ x ∈ rows1, x ∈ raw.rows) →
      r ∈ rows1.map cleanReport → ∃ r0 ∈ raw.rows, r = cleanReport r0 := by
    intro rows1 hs hm
    rcases List.mem_map.mp hm with ⟨r0, hr0, rfl⟩
    exact ⟨r0, hs r0 hr0, rfl⟩
  simp only [get_all_reports] at h
  split_ifs at h <;>
    first
    | (rw [mem_sortBy] at h
       first
       | exact hsub _ (fun x hx => (List.mem_filter.mp hx).1) h
       | exact hsub _ (fun x hx => hx) h)
    | exact hsub _ (fun x hx => (List.mem_filter.mp hx).1) h
    | exact hsub _ (fun x hx => hx) h

theorem mem_rows_filterTelecaller {df : Frame} {tel : Option String} {r : Report}
    (h : r ∈ (filterTelecaller df tel).rows) : r ∈ df.rows := by
  rcases tel with _ | t
  · exact h
  · simp only [filterTelecaller] at h
    split_ifs at h
    · exact (List.mem_filter.mp h).1
    · exact h

/-! Concrete snapshots used by the counterexample and bug theorems. -/

/-- A snapshot whose `Telecaller` column is present but whose metric columns
are all absent: the schema named explicitly by claim C1. -/
def telecallerOnlyFrame : RawFrame :=
  ⟨⟨false, true, false, false, false, false, false, false, false⟩,
   [⟨none, "Asha", none, none, none, none, none, "No", none⟩]⟩

/-- A snapshot with a `Date` column and one row dated day 100 (timestamp
144000), but with the `Total Calls` column absent. -/
def missingMetricsDatedFrame : RawFrame :=
  ⟨⟨true, false, false, true, false, false, false, false, false⟩,
   [⟨some 144000, "Asha", none, some 3, none, none, none, "No", none⟩]⟩

/-- A snapshot with all rollup columns present and a single record with zero
total calls and zero new data for telecaller `A`. -/
def zeroCallsFrame : RawFrame :=
  ⟨⟨false, true, true, true, true, false, false, true, false⟩,
   [⟨none, "A", some 0, some 0, some 0, none, none, "No", none⟩]⟩

/-- C1: the aggregation operations are not all total.  On a snapshot whose
`Total Calls` metric column is absent while `Telecaller` is present, the
per-telecaller rollup propagates an exception (the `KeyError` raised by
`DataFrame.agg`, modelled as `Except.error`) instead of returning its
zero/empty default, and on a snapshot with a dated in-window row but the
`Total Calls` column absent the weekly summary and the performance trend
propagate the same exception. -/
theorem rollup_and_trend_raise_on_missing_metric_column :
    get_telecaller_performance telecallerOnlyFrame = .error ()
      ∧ get_weekly_summary missingMetricsDatedFrame none 144000 = .error ()
      ∧ get_performance_trend missingMetricsDatedFrame 30 none 144000 = .error () := by
  refine ⟨rfl, rfl, rfl⟩

/-- C3: the per-telecaller rollup does not return 0 for a group whose summed
total calls is 0: pandas divides the integer columns elementwise, `0 / 0`
is `NaN`, and `NaN` survives the rounding, so the conversion rate of the group is
`NaN`, not 0. -/
theorem telecaller_zero_calls_conversion_is_nan :
    get_telecaller_performance zeroCallsFrame
      = .ok [⟨"A", 0, 0, 0, 0, PyFloat.nan⟩]
      ∧ PyFloat.nan ≠ PyFloat.val 0 := by
  refine ⟨rfl, ?_⟩
  intro h
  cases h

/-- C4: for every snapshot, telecaller filter and clock instant, the weekly
summary returns exactly the same sequence as the performance trend invoked
with a window of 7 days: the two source functions are line-for-line the
same computation. -/
theorem weekly_summary_eq_trend_seven (raw : RawFrame) (telecaller : Option String) (now : Int) :
    get_weekly_summary raw telecaller now = get_performance_trend raw 7 telecaller now := rfl

/-- C8: over the empty snapshot (no records at all, any schema), the summary
statistics return the mapping whose every field is zero, for every
time-range bucket and telecaller filter, and never raise. -/
theorem dashboard_stats_empty_snapshot_zero (s : Schema) (time_range : String) (telecaller : Option String) (now : Int) :
    get_dashboard_stats ⟨s, []⟩ time_range telecaller now = zeroStats := by
  have hraw : RawFrame.isEmpty ⟨s, []⟩ = true := by simp [RawFrame.isEmpty]
  have hframe : Frame.isEmpty ⟨s, []⟩ = true := by simp [Frame.isEmpty]
  simp [get_dashboard_stats, get_all_reports, hraw, hframe]

/-! Small schema and frame helper lemmas. -/

theorem noCols_false_of_hasDate {s : Schema} (h : s.hasDate = true) : s.noCols = false := by
  simp [Schema.noCols, h]

theorem noCols_false_of_hasTelecaller {s : Schema} (h : s.hasTelecaller = true) : s.noCols = false := by
  simp [Schema.noCols, h]

theorem rows_nil_of_isEmpty {df : Frame} (h : df.isEmpty = true) (hnc : df.schema.noCols = false) :
    df.rows = [] := by
  simp only [Frame.isEmpty, hnc, Bool.or_false] at h
  exact List.isEmpty_iff.mp h

theorem filterTelecaller_rows_nil {df : Frame} (tel : Option String) (h : df.rows = []) :
    (filterTelecaller df tel).rows = [] := by
  rcases tel with _ | t
  · exact h
  · simp only [filterTelecaller]
    split_ifs <;> simp [h]

/-- Summing one projection of the rollup rows: the groups formed from any
key list that is duplicate-free and covers every row partition the rows, so
the group sums add up to the global sum. -/
theorem sum_over_groups (rows : List Report) (keys : List String) (f : Report → Int)
    (hnd : keys.Nodup) (hcov : ∀ r ∈ rows, r.telecaller ∈ keys) :
    (keys.map (fun k => ((rows.filter (fun r => r.telecaller == k)).map f).sum)).sum
      = (rows.map f).sum := by
  induction rows with
  | nil =>
    simp only [List.filter_nil, List.map_nil, List.sum_nil]
    exact List.sum_eq_zero (by
      intro x hx
      rcases List.mem_map.mp hx with ⟨k, hk, rfl⟩
      rfl)
  | cons r rs ih =>
    have hcov2 : ∀ x ∈ rs, x.telecaller ∈ keys := fun x hx => hcov x (List.mem_cons_of_mem _ hx)
    have hr : r.telecaller ∈ keys := hcov r (List.mem_cons_self _ _)
    have step : ∀ k : String,
        ((List.filter (fun x => x.telecaller == k) (r :: rs)).map f).sum
          = (if r.telecaller = k then f r else 0)
            + ((rs.filter (fun x => x.telecaller == k)).map f).sum := by
      intro k
      by_cases h : r.telecaller = k
      · rw [List.filter_cons_of_pos (by simpa using h), if_pos h]
        simp
      · rw [List.filter_cons_of_neg (by simpa using h), if_neg h]
        simp
    have hmapeq : keys.map (fun k => ((List.filter (fun x => x.telecaller == k) (r :: rs)).map f).sum)
        = keys.map (fun k => (if r.telecaller = k then f r else 0)
            + ((rs.filter (fun x => x.telecaller == k)).map f).sum) :=
      List.map_congr_left (fun k _ => step k)
    rw [hmapeq, sum_map_add_distrib, sum_map_ite_single hnd hr, ih hcov2]
    simp

/-- The rollup preserves the global total-calls sum of the frame it rolls
up. -/
theorem sum_rollupRows_totalCalls (df : Frame) :
    ((rollupRows df).map (fun p => p.totalCalls)).sum
      = (df.rows.map (fun r => r.totalCalls)).sum := by
  simp only [rollupRows, List.map_map]
  have hcomp : ((fun p : PerfRow => p.totalCalls) ∘ (fun k =>
      (⟨k, ((df.rows.filter (fun r => r.telecaller == k)).map (fun r => r.totalCalls)).sum,
        ((df.rows.filter (fun r => r.telecaller == k)).map (fun r => r.newData)).sum,
        ((df.rows.filter (fun r => r.telecaller == k)).map (fun r => r.crmData)).sum,
        (((df.rows.filter (fun r => r.telecaller == k)).filter (fun r => r.video == "Yes")).length : Int),
        pyMul100Round1 (pyDiv (((df.rows.filter (fun r => r.telecaller == k)).map (fun r => r.newData)).sum)
          (((df.rows.filter (fun r => r.telecaller == k)).map (fun r => r.totalCalls)).sum))⟩ : PerfRow)))
      = fun k => ((df.rows.filter (fun r => r.telecaller == k)).map (fun r => r.totalCalls)).sum := rfl
  rw [hcomp]
  exact sum_over_groups df.rows (dedupL (df.rows.map (fun r => r.telecaller)))
    (fun r => r.totalCalls) (nodup_dedupL _)
    (fun r hr => mem_dedupL.mpr (List.mem_map_of_mem _ hr))

/-- C6: with the five grouped columns present, the per-telecaller rollup
succeeds and the sum over all its groups of `total_calls` equals the global
sum of `total_calls` over the working frame: the grouping partitions the
records, losing and duplicating none. -/
theorem rollup_total_calls_partition (raw : RawFrame)
    (hTel : raw.schema.hasTelecaller = true) (hTC : raw.schema.hasTotalCalls = true)
    (hND : raw.schema.hasNewData = true) (hCRM : raw.schema.hasCrmData = true)
    (hV : raw.schema.hasVideo = true) :
    ∃ l, get_telecaller_performance raw = .ok l
      ∧ (l.map (fun p => p.totalCalls)).sum
          = ((get_all_reports raw).rows.map (fun r => r.totalCalls)).sum := by
  have hs : (get_all_reports raw).schema = raw.schema := schema_get_all_reports raw
  by_cases hE : (get_all_reports raw).isEmpty = true
  · refine ⟨[], ?_, ?_⟩
    · simp [get_telecaller_performance, hE]
    · have hrows : (get_all_reports raw).rows = [] :=
        rows_nil_of_isEmpty hE (by rw [hs]; exact noCols_false_of_hasTelecaller hTel)
      simp [hrows]
  · refine ⟨rollupRows (get_all_reports raw), ?_, sum_rollupRows_totalCalls _⟩
    simp [get_telecaller_performance, hE, hs, hTel, hTC, hND, hCRM, hV]

/-- A concrete snapshot with all rollup columns present: two telecallers,
three records. -/
def rollupSampleFrame : RawFrame :=
  ⟨⟨false, true, true, true, true, false, false, true, false⟩,
   [⟨none, "Prakriti", some 10, some 5, some 2, none, none, "No", none⟩,
    ⟨none, "Raphiya", some 20, some 0, some 0, none, none, "Yes", none⟩,
    ⟨none, "Prakriti", some 4, some 1, some 1, none, none, "No", none⟩]⟩

/-- Witness for C6 at a concrete snapshot. -/
theorem rollup_total_calls_partition_witness :
    (rollupSampleFrame.schema.hasTelecaller = true ∧ rollupSampleFrame.schema.hasTotalCalls = true
      ∧ rollupSampleFrame.schema.hasNewData = true ∧ rollupSampleFrame.schema.hasCrmData = true
      ∧ rollupSampleFrame.schema.hasVideo = true)
      ∧ ∃ l, get_telecaller_performance rollupSampleFrame = .ok l
          ∧ (l.map (fun p => p.totalCalls)).sum
              = ((get_all_reports rollupSampleFrame).rows.map (fun r => r.totalCalls)).sum :=
  ⟨⟨rfl, rfl, rfl, rfl, rfl⟩,
   rollup_total_calls_partition rollupSampleFrame rfl rfl rfl rfl rfl⟩

/-- C9: the country distribution contains no blank key and no nonpositive
count; a snapshot whose rows all lack a usable country value, a snapshot
without the country column, and the empty snapshot each yield the empty
mapping. -/
theorem country_distribution_no_blank_no_zero (raw : RawFrame) (telecaller : Option String) :
    (∀ p ∈ get_country_distribution raw telecaller, p.1 ≠ "" ∧ 0 < p.2)
      ∧ ((∀ r ∈ raw.rows, r.countryData = none ∨ r.countryData = some "") →
          get_country_distribution raw telecaller = [])
      ∧ (raw.schema.hasCountryData = false → get_country_distribution raw telecaller = [])
      ∧ (raw.rows = [] → get_country_distribution raw telecaller = []) := by
  refine ⟨?_, ?_, ?_, ?_⟩
  · intro p hp
    simp only [get_country_distribution] at hp
    split_ifs at hp with h1 h2 h3
    · cases hp
    · cases hp
    · rw [mem_sortBy] at hp
      rcases List.mem_map.mp hp with ⟨v, hv, rfl⟩
      rcases List.mem_filterMap.mp (mem_dedupL.mp hv) with ⟨r, hr, hrv⟩
      have hpred := (List.mem_filter.mp hr).2
      constructor
      · rcases hcd : r.countryData with _ | c
        · rw [hcd] at hrv; cases hrv
        · rw [hcd] at hrv hpred
          cases hrv
          simpa using hpred
      · have hrk : r ∈ (List.filter (fun x => match x.countryData with
            | some c => c != ""
            | none => false) (filterTelecaller (get_all_reports raw) telecaller).rows).filter
              (fun x => x.countryData == some v) := by
          rw [List.mem_filter]
          exact ⟨hr, by simp [hrv]⟩
        simpa using List.length_pos.mpr (List.ne_nil_of_mem hrk)
    · cases hp
  · intro hall
    have hk : (filterTelecaller (get_all_reports raw) telecaller).rows.filter
        (fun r => match r.countryData with
          | some c => c != ""
          | none => false) = [] := by
      rw [List.filter_eq_nil_iff]
      intro r hr
      rcases mem_rows_get_all_reports (mem_rows_filterTelecaller hr) with ⟨r0, hr0, rfl⟩
      rcases hall r0 hr0 with h | h <;> simp [cleanReport, h]
    simp only [get_country_distribution, hk]
    split_ifs <;> rfl
  · intro hcd
    simp only [get_country_distribution]
    split_ifs with h1 h2 h3
    · rfl
    · rfl
    · exfalso
      rw [schema_filterTelecaller, schema_get_all_reports, hcd] at h2
      simp at h2
    · rfl
  · intro hrows
    have hraw : raw.isEmpty = true := by simp [RawFrame.isEmpty, hrows]
    simp [get_country_distribution, get_all_reports, hraw, hrows, Frame.isEmpty]

/-- A snapshot with the country column present whose two rows carry only a
blank and a missing country value. -/
def blankCountryFrame : RawFrame :=
  ⟨⟨false, false, false, false, false, false, false, false, true⟩,
   [⟨none, "A", none, none, none, none, none, "No", some ""⟩,
    ⟨none, "B", none, none, none, none, none, "No", none⟩]⟩

/-- Witness for C9: on the blank-country snapshot the distribution is the
empty mapping. -/
theorem country_distribution_no_blank_no_zero_witness :
    (∀ r ∈ blankCountryFrame.rows, r.countryData = none ∨ r.countryData = some "")
      ∧ get_country_distribution blankCountryFrame none = [] :=
  ⟨by decide, (country_distribution_no_blank_no_zero blankCountryFrame none).2.1 (by decide)⟩

/-- Dropping the unparseable-date rows from the raw snapshot before handing
it to the retrieval step changes nothing: with the `Date` column present the
retrieval performs exactly that drop itself. -/
theorem get_all_reports_drop_unparseable (raw : RawFrame) (hD : raw.schema.hasDate = true) :
    get_all_reports ⟨raw.schema, raw.rows.filter (fun r => r.date.isSome)⟩ = get_all_reports raw := by
  have hnc : raw.schema.noCols = false := noCols_false_of_hasDate hD
  have hff : (raw.rows.filter (fun r => r.date.isSome)).filter (fun r => r.date.isSome)
      = raw.rows.filter (fun r => r.date.isSome) :=
    List.filter_eq_self.mpr (fun a ha => (List.mem_filter.mp ha).2)
  by_cases hF : raw.rows.filter (fun r => r.date.isSome) = []
  · by_cases hR : raw.rows = []
    · simp [get_all_reports, RawFrame.isEmpty, hR]
    · have hR2 : raw.rows.isEmpty = false := by
        cases hempty : raw.rows.isEmpty
        · rfl
        · exact absurd (List.isEmpty_iff.mp hempty) hR
      simp [get_all_reports, RawFrame.isEmpty, hnc, hD, hF, hR2]
  · have hR : raw.rows ≠ [] := by
      intro h
      rw [h] at hF
      exact hF rfl
    have hR2 : raw.rows.isEmpty = false := by
      cases hempty : raw.rows.isEmpty
      · rfl
      · exact absurd (List.isEmpty_iff.mp hempty) hR
    have hF2 : (raw.rows.filter (fun r => r.date.isSome)).isEmpty = false := by
      cases hempty : (raw.rows.filter (fun r => r.date.isSome)).isEmpty
      · rfl
      · exact absurd (List.isEmpty_iff.mp hempty) hF
    simp [get_all_reports, RawFrame.isEmpty, hnc, hD, hff, hF2, hR2]

/-- C10: when the `Date` column is present, the shared retrieval step drops
exactly the rows whose date failed to parse: every working row keeps a
parsed date, the working rows are a permutation of the cleaned parseable raw
rows, and consequently even the date-independent operations (the
per-telecaller rollup, the country distribution) compute on the parseable
rows only. -/
theorem unparseable_dates_dropped (raw : RawFrame) (hD : raw.schema.hasDate = true) :
    (∀ r ∈ (get_all_reports raw).rows, r.date.isSome = true)
      ∧ (get_all_reports raw).rows.Perm
          ((raw.rows.filter (fun r => r.date.isSome)).map cleanReport)
      ∧ get_telecaller_performance raw
          = get_telecaller_performance ⟨raw.schema, raw.rows.filter (fun r => r.date.isSome)⟩
      ∧ (∀ tel, get_country_distribution raw tel
          = get_country_distribution ⟨raw.schema, raw.rows.filter (fun r => r.date.isSome)⟩ tel) := by
  have hnc : raw.schema.noCols = false := noCols_false_of_hasDate hD
  have hperm : (get_all_reports raw).rows.Perm
      ((raw.rows.filter (fun r => r.date.isSome)).map cleanReport) := by
    by_cases hE : raw.isEmpty = true
    · have hR : raw.rows = [] := by
        simp only [RawFrame.isEmpty, hnc, Bool.or_false] at hE
        exact List.isEmpty_iff.mp hE
      simp [get_all_reports, hE, hR]
    · simp only [get_all_reports, hE, if_false, hD, if_true]
      split_ifs
      all_goals
        first
        | (exfalso; simp_all; done)
        | exact sortBy_perm _ _
        | exact List.Perm.refl _
  refine ⟨?_, hperm, ?_, ?_⟩
  · intro r hr
    have hr2 := hperm.mem_iff.mp hr
    rcases List.mem_map.mp hr2 with ⟨r0, hr0, rfl⟩
    exact (List.mem_filter.mp hr0).2
  · simp only [get_telecaller_performance, get_all_reports_drop_unparseable raw hD]
  · intro tel
    simp only [get_country_distribution, get_all_reports_drop_unparseable raw hD]

/-- A snapshot with a `Date` column, one parseable row (day 100) and one row
whose date fails to parse. -/
def mixedDatesFrame : RawFrame :=
  ⟨⟨true, true, true, true, true, false, false, true, true⟩,
   [⟨some 144000, "Asha", some 3, some 1, some 1, none, none, "No", some "India"⟩,
    ⟨none, "Bina", some 9, some 2, some 0, none, none, "Yes", some "Nepal"⟩]⟩

/-- Witness for C10 at a concrete snapshot. -/
theorem unparseable_dates_dropped_witness :
    mixedDatesFrame.schema.hasDate = true
      ∧ ((∀ r ∈ (get_all_reports mixedDatesFrame).rows, r.date.isSome = true)
        ∧ (get_all_reports mixedDatesFrame).rows.Perm
            ((mixedDatesFrame.rows.filter (fun r => r.date.isSome)).map cleanReport)
        ∧ get_telecaller_performance mixedDatesFrame
            = get_telecaller_performance ⟨mixedDatesFrame.schema, mixedDatesFrame.rows.filter (fun r => r.date.isSome)⟩
        ∧ (∀ tel, get_country_distribution mixedDatesFrame tel
            = get_country_distribution ⟨mixedDatesFrame.schema, mixedDatesFrame.rows.filter (fun r => r.date.isSome)⟩ tel)) :=
  ⟨rfl, unparseable_dates_dropped mixedDatesFrame rfl⟩

/-! The five named time-range buckets. -/

theorem bucketFilterRows_today (rows : List Report) (today : Int) :
    bucketFilterRows rows "today" today = rows.filter (fun r => dayKey r == some today) := rfl

theorem bucketFilterRows_yesterday (rows : List Report) (today : Int) :
    bucketFilterRows rows "yesterday" today = rows.filter (fun r => dayKey r == some (today - 1)) := rfl

theorem bucketFilterRows_week (rows : List Report) (today : Int) :
    bucketFilterRows rows "week" today = rows.filter (fun r => match dayKey r with
      | some d => decide (today - 7 ≤ d)
      | none => false) := rfl

theorem bucketFilterRows_month (rows : List Report) (today : Int) :
    bucketFilterRows rows "month" today = rows.filter (fun r => match dayKey r with
      | some d => decide (today - 30 ≤ d)
      | none => false) := rfl

theorem bucketFilterRows_all (rows : List Report) (today : Int) :
    bucketFilterRows rows "all" today = rows := rfl

theorem dashStatsOf_nil (s : Schema) : dashStatsOf ⟨s, []⟩ = zeroStats := by
  simp [dashStatsOf, Frame.isEmpty, zeroStats, round1_zero]

theorem get_dashboard_stats_eq_dashStatsOf (raw : RawFrame) (telecaller : Option String)
    (now : Int) (hD : raw.schema.hasDate = true) (tr : String) :
    get_dashboard_stats raw tr telecaller now
      = dashStatsOf ⟨raw.schema,
          bucketFilterRows (filterTelecaller (get_all_reports raw) telecaller).rows tr (dayOf now)⟩ := by
  by_cases hE : (get_all_reports raw).isEmpty = true
  · have hR : (get_all_reports raw).rows = [] :=
      rows_nil_of_isEmpty hE (by rw [schema_get_all_reports]; exact noCols_false_of_hasDate hD)
    have hRT : (filterTelecaller (get_all_reports raw) telecaller).rows = [] :=
      filterTelecaller_rows_nil _ hR
    have hB : bucketFilterRows [] tr (dayOf now) = [] := by
      simp only [bucketFilterRows]
      split_ifs <;> rfl
    rw [hRT, hB]
    simp [get_dashboard_stats, hE, dashStatsOf_nil]
  · have hsch2 : (filterTelecaller (get_all_reports raw) telecaller).schema.hasDate = true := by
      rw [schema_filterTelecaller, schema_get_all_reports]
      exact hD
    simp only [get_dashboard_stats, hE, if_false, hsch2, if_true]
    rw [schema_filterTelecaller, schema_get_all_reports]
    simp

/-- C7 as amended: the summary statistics scope their input to the date
window of the named bucket over the telecaller-narrowed working rows:
`today` keeps only records whose calendar day is today, `yesterday` only
yesterday, `week` the records dated at most 7 days back (an inclusive lower
bound only: the source imposes no upper bound, so future-dated records are
kept as well), `month` likewise at most 30 days back, and `all` applies no
date restriction. -/
theorem dashboard_stats_bucket_windows (raw : RawFrame) (telecaller : Option String) (now : Int)
    (hD : raw.schema.hasDate = true) :
    get_dashboard_stats raw "today" telecaller now
        = dashStatsOf ⟨raw.schema, (filterTelecaller (get_all_reports raw) telecaller).rows.filter
            (fun r => dayKey r == some (dayOf now))⟩
      ∧ get_dashboard_stats raw "yesterday" telecaller now
        = dashStatsOf ⟨raw.schema, (filterTelecaller (get_all_reports raw) telecaller).rows.filter
            (fun r => dayKey r == some (dayOf now - 1))⟩
      ∧ get_dashboard_stats raw "week" telecaller now
        = dashStatsOf ⟨raw.schema, (filterTelecaller (get_all_reports raw) telecaller).rows.filter
            (fun r => match dayKey r with
              | some d => decide (dayOf now - 7 ≤ d)
              | none => false)⟩
      ∧ get_dashboard_stats raw "month" telecaller now
        = dashStatsOf ⟨raw.schema, (filterTelecaller (get_all_reports raw) telecaller).rows.filter
            (fun r => match dayKey r with
              | some d => decide (dayOf now - 30 ≤ d)
              | none => false)⟩
      ∧ get_dashboard_stats raw "all" telecaller now
        = dashStatsOf ⟨raw.schema, (filterTelecaller (get_all_reports raw) telecaller).rows⟩ := by
  refine ⟨?_, ?_, ?_, ?_, ?_⟩
  · rw [get_dashboard_stats_eq_dashStatsOf raw telecaller now hD, bucketFilterRows_today]
  · rw [get_dashboard_stats_eq_dashStatsOf raw telecaller now hD, bucketFilterRows_yesterday]
  · rw [get_dashboard_stats_eq_dashStatsOf raw telecaller now hD, bucketFilterRows_week]
  · rw [get_dashboard_stats_eq_dashStatsOf raw telecaller now hD, bucketFilterRows_month]
  · rw [get_dashboard_stats_eq_dashStatsOf raw telecaller now hD, bucketFilterRows_all]

/-- A dated two-row snapshot (days 100 and 69) used to witness the bucket
scoping. -/
def bucketSampleFrame : RawFrame :=
  ⟨⟨true, false, true, true, false, false, false, false, false⟩,
   [⟨some 144000, "A", some 2, some 1, none, none, none, "No", none⟩,
    ⟨some 100000, "B", some 4, some 2, none, none, none, "No", none⟩]⟩

/-- Witness for C7 at a concrete snapshot and clock instant. -/
theorem dashboard_stats_bucket_windows_witness :
    bucketSampleFrame.schema.hasDate = true
      ∧ (get_dashboard_stats bucketSampleFrame "today" none 144000
          = dashStatsOf ⟨bucketSampleFrame.schema, (filterTelecaller (get_all_reports bucketSampleFrame) none).rows.filter
              (fun r => dayKey r == some (dayOf 144000))⟩
        ∧ get_dashboard_stats bucketSampleFrame "yesterday" none 144000
          = dashStatsOf ⟨bucketSampleFrame.schema, (filterTelecaller (get_all_reports bucketSampleFrame) none).rows.filter
              (fun r => dayKey r == some (dayOf 144000 - 1))⟩
        ∧ get_dashboard_stats bucketSampleFrame "week" none 144000
          = dashStatsOf ⟨bucketSampleFrame.schema, (filterTelecaller (get_all_reports bucketSampleFrame) none).rows.filter
              (fun r => match dayKey r with
                | some d => decide (dayOf 144000 - 7 ≤ d)
                | none => false)⟩
        ∧ get_dashboard_stats bucketSampleFrame "month" none 144000
          = dashStatsOf ⟨bucketSampleFrame.schema, (filterTelecaller (get_all_reports bucketSampleFrame) none).rows.filter
              (fun r => match dayKey r with
                | some d => decide (dayOf 144000 - 30 ≤ d)
                | none => false)⟩
        ∧ get_dashboard_stats bucketSampleFrame "all" none 144000
          = dashStatsOf ⟨bucketSampleFrame.schema, (filterTelecaller (get_all_reports bucketSampleFrame) none).rows⟩) :=
  ⟨rfl, dashboard_stats_bucket_windows bucketSampleFrame none 144000 rfl⟩

/-! C2: bounds on the two derived rates of the summary statistics. -/

theorem mem_bucketFilterRows {rows : List Report} {tr : String} {today : Int} {r : Report}
    (h : r ∈ bucketFilterRows rows tr today) : r ∈ rows := by
  simp only [bucketFilterRows] at h
  split_ifs at h <;> first | exact (List.mem_filter.mp h).1 | exact h

theorem rate_bound_key (T N : Int) (h : 0 < T → 0 ≤ N ∧ N ≤ T) :
    (0 ≤ round1 (if 0 < T then (N : ℚ) / (T : ℚ) * 100 else 0)
      ∧ round1 (if 0 < T then (N : ℚ) / (T : ℚ) * 100 else 0) ≤ 100)
      ∧ (T = 0 → round1 (if 0 < T then (N : ℚ) / (T : ℚ) * 100 else 0) = 0) := by
  by_cases hT : 0 < T
  · rcases h hT with ⟨hN0, hNT⟩
    have hTq : (0 : ℚ) < (T : ℚ) := by exact_mod_cast hT
    have hNq : (0 : ℚ) ≤ (N : ℚ) := by exact_mod_cast hN0
    have hNTq : (N : ℚ) ≤ (T : ℚ) := by exact_mod_cast hNT
    have hq0 : (0 : ℚ) ≤ (N : ℚ) / (T : ℚ) * 100 :=
      mul_nonneg (div_nonneg hNq (le_of_lt hTq)) (by norm_num)
    have hdiv : (N : ℚ) / (T : ℚ) ≤ 1 := (div_le_one hTq).mpr hNTq
    have hq100 : (N : ℚ) / (T : ℚ) * 100 ≤ 100 := by nlinarith
    rw [if_pos hT]
    exact ⟨⟨round1_nonneg hq0, round1_le_100 hq100⟩, fun hz => absurd hz (by omega)⟩
  · rw [if_neg hT]
    refine ⟨⟨?_, ?_⟩, fun _ => round1_zero⟩
    · rw [round1_zero]
    · rw [round1_zero]; norm_num

theorem dashStatsOf_rate_bounds (df : Frame)
    (hdom : ∀ r ∈ df.rows, 0 ≤ r.newData ∧ r.newData ≤ r.totalCalls
        ∧ 0 ≤ r.crmData ∧ r.crmData ≤ r.totalCalls) :
    (0 ≤ (dashStatsOf df).conversion_rate ∧ (dashStatsOf df).conversion_rate ≤ 100
      ∧ 0 ≤ (dashStatsOf df).crm_completion_rate ∧ (dashStatsOf df).crm_completion_rate ≤ 100)
      ∧ ((dashStatsOf df).total_calls = 0 →
          (dashStatsOf df).conversion_rate = 0 ∧ (dashStatsOf df).crm_completion_rate = 0) := by
  have hTCnn : (0 : Int) ≤ (df.rows.map (fun r => r.totalCalls)).sum :=
    List.sum_nonneg (by
      intro x hx
      rcases List.mem_map.mp hx with ⟨r, hr, rfl⟩
      exact le_trans (hdom r hr).1 (hdom r hr).2.1)
  have hNDnn : (0 : Int) ≤ (df.rows.map (fun r => r.newData)).sum :=
    List.sum_nonneg (by
      intro x hx
      rcases List.mem_map.mp hx with ⟨r, hr, rfl⟩
      exact (hdom r hr).1)
  have hCRMnn : (0 : Int) ≤ (df.rows.map (fun r => r.crmData)).sum :=
    List.sum_nonneg (by
      intro x hx
      rcases List.mem_map.mp hx with ⟨r, hr, rfl⟩
      exact (hdom r hr).2.2.1)
  have hNDle : (df.rows.map (fun r => r.newData)).sum ≤ (df.rows.map (fun r => r.totalCalls)).sum :=
    List.sum_le_sum (fun r hr => (hdom r hr).2.1)
  have hCRMle : (df.rows.map (fun r => r.crmData)).sum ≤ (df.rows.map (fun r => r.totalCalls)).sum :=
    List.sum_le_sum (fun r hr => (hdom r hr).2.2.2)
  have hkeyConv := rate_bound_key
    (if !df.isEmpty && df.schema.hasTotalCalls then (df.rows.map (fun r => r.totalCalls)).sum else 0)
    (if !df.isEmpty && df.schema.hasNewData then (df.rows.map (fun r => r.newData)).sum else 0)
    (by
      intro hT
      by_cases hg : (!df.isEmpty && df.schema.hasTotalCalls) = true
      · rw [if_pos hg] at hT ⊢
        by_cases hgn : (!df.isEmpty && df.schema.hasNewData) = true
        · rw [if_pos hgn]
          exact ⟨hNDnn, hNDle⟩
        · rw [if_neg hgn]
          exact ⟨le_refl 0, hTCnn⟩
      · rw [if_neg hg] at hT
        exact absurd hT (by norm_num))
  have hkeyCrm := rate_bound_key
    (if !df.isEmpty && df.schema.hasTotalCalls then (df.rows.map (fun r => r.totalCalls)).sum else 0)
    (if !df.isEmpty && df.schema.hasCrmData then (df.rows.map (fun r => r.crmData)).sum else 0)
    (by
      intro hT
      by_cases hg : (!df.isEmpty && df.schema.hasTotalCalls) = true
      · rw [if_pos hg] at hT ⊢
        by_cases hgn : (!df.isEmpty && df.schema.hasCrmData) = true
        · rw [if_pos hgn]
          exact ⟨hCRMnn, hCRMle⟩
        · rw [if_neg hgn]
          exact ⟨le_refl 0, hTCnn⟩
      · rw [if_neg hg] at hT
        exact absurd hT (by norm_num))
  simp only [dashStatsOf]
  exact ⟨⟨hkeyConv.1.1, hkeyConv.1.2, hkeyCrm.1.1, hkeyCrm.1.2⟩,
    fun hz => ⟨hkeyConv.2 hz, hkeyCrm.2 hz⟩⟩

/-- C2 amended: when additionally every record has `new_data ≤ total_calls`
and `crm_data ≤ total_calls` (which non-negativity alone does not give),
both derived rates of the summary statistics lie in `[0, 100]`, and both are
exactly 0 whenever the filtered sum of total calls is 0, for every bucket,
telecaller filter and clock instant. -/
theorem dashboard_rates_bounded (raw : RawFrame) (time_range : String) (telecaller : Option String)
    (now : Int)
    (hdom : ∀ r ∈ raw.rows, 0 ≤ (cleanReport r).newData
        ∧ (cleanReport r).newData ≤ (cleanReport r).totalCalls
        ∧ 0 ≤ (cleanReport r).crmData
        ∧ (cleanReport r).crmData ≤ (cleanReport r).totalCalls) :
    (0 ≤ (get_dashboard_stats raw time_range telecaller now).conversion_rate
      ∧ (get_dashboard_stats raw time_range telecaller now).conversion_rate ≤ 100
      ∧ 0 ≤ (get_dashboard_stats raw time_range telecaller now).crm_completion_rate
      ∧ (get_dashboard_stats raw time_range telecaller now).crm_completion_rate ≤ 100)
      ∧ ((get_dashboard_stats raw time_range telecaller now).total_calls = 0 →
          (get_dashboard_stats raw time_range telecaller now).conversion_rate = 0
            ∧ (get_dashboard_stats raw time_range telecaller now).crm_completion_rate = 0) := by
  by_cases hE : (get_all_reports raw).isEmpty = true
  · have hz : get_dashboard_stats raw time_range telecaller now = zeroStats := by
      simp [get_dashboard_stats, hE]
    rw [hz]
    exact ⟨⟨by norm_num [zeroStats], by norm_num [zeroStats], by norm_num [zeroStats],
      by norm_num [zeroStats]⟩, fun _ => ⟨rfl, rfl⟩⟩
  · have hform : get_dashboard_stats raw time_range telecaller now
        = dashStatsOf (if (filterTelecaller (get_all_reports raw) telecaller).schema.hasDate then
            ⟨(filterTelecaller (get_all_reports raw) telecaller).schema,
              bucketFilterRows (filterTelecaller (get_all_reports raw) telecaller).rows time_range (dayOf now)⟩
          else filterTelecaller (get_all_reports raw) telecaller) := by
      simp [get_dashboard_stats, hE]
    rw [hform]
    apply dashStatsOf_rate_bounds
    intro r hr
    have hr2 : r ∈ (filterTelecaller (get_all_reports raw) telecaller).rows := by
      split_ifs at hr with h
      · exact mem_bucketFilterRows hr
      · exact hr
    rcases mem_rows_get_all_reports (mem_rows_filterTelecaller hr2) with ⟨r0, hr0, rfl⟩
    exact hdom r0 hr0

/-- A snapshot with non-negative numeric cells in which `new_data` exceeds
`total_calls` (the layer performs no such validation). -/
def overConversionFrame : RawFrame :=
  ⟨⟨false, false, true, true, false, false, false, false, false⟩,
   [⟨none, "A", some 1, some 5, some 0, some 0, some 0, "No", none⟩]⟩

/-- C2 as frozen is false: all numeric fields of this snapshot are
non-negative, yet the summary conversion rate is 500, outside `[0, 100]`,
because one record has 1 total call and 5 new data and the layer does not
enforce `total_calls ≥ new_data`. -/
theorem conversion_rate_exceeds_100 :
    (∀ r ∈ overConversionFrame.rows,
        0 ≤ (cleanReport r).totalCalls ∧ 0 ≤ (cleanReport r).newData
          ∧ 0 ≤ (cleanReport r).crmData ∧ 0 ≤ (cleanReport r).fairData
          ∧ 0 ≤ (cleanReport r).visitedStudents)
      ∧ (get_dashboard_stats overConversionFrame "all" none 0).conversion_rate = 500
      ∧ ¬ (get_dashboard_stats overConversionFrame "all" none 0).conversion_rate ≤ 100 := by
  have h1 : (get_dashboard_stats overConversionFrame "all" none 0).conversion_rate
      = round1 (((5 : Int) : ℚ) / ((1 : Int) : ℚ) * 100) := rfl
  have h2 : ((5 : Int) : ℚ) / ((1 : Int) : ℚ) * 100 = ((500 : Int) : ℚ) := by norm_num
  have hval : (get_dashboard_stats overConversionFrame "all" none 0).conversion_rate = 500 := by
    rw [h1, h2, round1_intCast]
    norm_num
  refine ⟨by decide, hval, ?_⟩
  rw [hval]
  norm_num

/-- A snapshot whose single record satisfies the dominance hypotheses of the
amended C2. -/
def boundedRatesFrame : RawFrame :=
  ⟨⟨false, false, true, true, true, false, false, false, false⟩,
   [⟨none, "A", some 10, some 5, some 2, some 0, some 0, "No", none⟩]⟩

/-- Witness for the amended C2 at a concrete snapshot. -/
theorem dashboard_rates_bounded_witness :
    (∀ r ∈ boundedRatesFrame.rows, 0 ≤ (cleanReport r).newData
        ∧ (cleanReport r).newData ≤ (cleanReport r).totalCalls
        ∧ 0 ≤ (cleanReport r).crmData
        ∧ (cleanReport r).crmData ≤ (cleanReport r).totalCalls)
      ∧ ((0 ≤ (get_dashboard_stats boundedRatesFrame "all" none 0).conversion_rate
          ∧ (get_dashboard_stats boundedRatesFrame "all" none 0).conversion_rate ≤ 100
          ∧ 0 ≤ (get_dashboard_stats boundedRatesFrame "all" none 0).crm_completion_rate
          ∧ (get_dashboard_stats boundedRatesFrame "all" none 0).crm_completion_rate ≤ 100)
        ∧ ((get_dashboard_stats boundedRatesFrame "all" none 0).total_calls = 0 →
            (get_dashboard_stats boundedRatesFrame "all" none 0).conversion_rate = 0
              ∧ (get_dashboard_stats boundedRatesFrame "all" none 0).crm_completion_rate = 0)) :=
  ⟨by decide, dashboard_rates_bounded boundedRatesFrame "all" none 0 (by decide)⟩

/-! C5: the shape of the performance-trend series. -/

theorem intLe_total : ∀ a b : Int, decide (a ≤ b) = true ∨ decide (b ≤ a) = true := by
  intro a b
  rcases le_total a b with h | h
  · exact Or.inl (decide_eq_true h)
  · exact Or.inr (decide_eq_true h)

theorem intLe_trans : ∀ a b c : Int,
    decide (a ≤ b) = true → decide (b ≤ c) = true → decide (a ≤ c) = true := by
  intro a b c h1 h2
  exact decide_eq_true (le_trans (of_decide_eq_true h1) (of_decide_eq_true h2))

theorem groupTrend_days_map (kept : List Report) :
    (groupTrend kept).map (fun row => row.day)
      = sortBy (fun a b => decide (a ≤ b)) (dedupL ((kept.filterMap (fun r => r.date)).map dayOf)) := by
  simp only [groupTrend, List.map_map]
  generalize sortBy (fun a b => decide (a ≤ b))
    (dedupL ((kept.filterMap (fun r => r.date)).map dayOf)) = ds
  induction ds with
  | nil => rfl
  | cons d t ih => simp [Function.comp, ih]

theorem pairwise_lt_groupTrend_days (kept : List Report) :
    ((groupTrend kept).map (fun row => row.day)).Pairwise (fun a b => a < b) := by
  rw [groupTrend_days_map]
  have hle := pairwise_sortBy intLe_total intLe_trans
    (dedupL ((kept.filterMap (fun r => r.date)).map dayOf))
  have hnd : (sortBy (fun a b => decide (a ≤ b))
      (dedupL ((kept.filterMap (fun r => r.date)).map dayOf))).Pairwise (fun a b => a ≠ b) :=
    (sortBy_perm _ _).nodup_iff.mpr (nodup_dedupL _)
  exact (hle.and hnd).imp (fun hab => lt_of_le_of_ne (of_decide_eq_true hab.1) hab.2)

/-- C5: with the date and the two metric columns present, the performance
trend keeps exactly the telecaller-narrowed working records whose timestamp
lies in the inclusive interval from `now` minus the window to `now`
(`windowRows`), emits rows with strictly increasing calendar days (hence at
most one row per distinct day, ascending, with no synthesized zero-days:
every emitted day is the day of some kept record and the day of every kept
record is emitted), sums the two metrics per day, and maps an empty input to
the empty sequence rather than an error. -/
theorem performance_trend_window_grouping (raw : RawFrame) (days : Int)
    (telecaller : Option String) (now : Int)
    (hD : raw.schema.hasDate = true) (hTC : raw.schema.hasTotalCalls = true)
    (hND : raw.schema.hasNewData = true) :
    (∃ l, get_performance_trend raw days telecaller now = .ok l
      ∧ (l.map (fun row => row.day)).Pairwise (fun a b => a < b)
      ∧ (∀ row ∈ l,
          (∃ r ∈ windowRows (filterTelecaller (get_all_reports raw) telecaller).rows
              (now - days * minutesPerDay) now, dayKey r = some row.day)
          ∧ row.totalCalls = (((windowRows (filterTelecaller (get_all_reports raw) telecaller).rows
              (now - days * minutesPerDay) now).filter (fun r => dayKey r == some row.day)).map
                (fun r => r.totalCalls)).sum
          ∧ row.newData = (((windowRows (filterTelecaller (get_all_reports raw) telecaller).rows
              (now - days * minutesPerDay) now).filter (fun r => dayKey r == some row.day)).map
                (fun r => r.newData)).sum)
      ∧ (∀ r ∈ windowRows (filterTelecaller (get_all_reports raw) telecaller).rows
            (now - days * minutesPerDay) now,
          ∃ row ∈ l, dayKey r = some row.day))
      ∧ (raw.rows = [] → get_performance_trend raw days telecaller now = .ok []) := by
  refine ⟨?_, ?_⟩
  · by_cases hE : (get_all_reports raw).isEmpty = true
    · have hR : (get_all_reports raw).rows = [] :=
        rows_nil_of_isEmpty hE (by rw [schema_get_all_reports]; exact noCols_false_of_hasDate hD)
      have hRT : (filterTelecaller (get_all_reports raw) telecaller).rows = [] :=
        filterTelecaller_rows_nil _ hR
      refine ⟨[], ?_, by simp, by simp, ?_⟩
      · simp [get_performance_trend, hE]
      · intro r hr
        rw [hRT] at hr
        simp [windowRows] at hr
    · have hsch2 : (filterTelecaller (get_all_reports raw) telecaller).schema.hasDate = true := by
        rw [schema_filterTelecaller, schema_get_all_reports]
        exact hD
      have hschTC : (filterTelecaller (get_all_reports raw) telecaller).schema.hasTotalCalls = true := by
        rw [schema_filterTelecaller, schema_get_all_reports]
        exact hTC
      have hschND : (filterTelecaller (get_all_reports raw) telecaller).schema.hasNewData = true := by
        rw [schema_filterTelecaller, schema_get_all_reports]
        exact hND
      by_cases hK : (windowRows (filterTelecaller (get_all_reports raw) telecaller).rows
          (now - days * minutesPerDay) now).isEmpty = true
      · have hKnil : windowRows (filterTelecaller (get_all_reports raw) telecaller).rows
            (now - days * minutesPerDay) now = [] := List.isEmpty_iff.mp hK
        refine ⟨[], ?_, by simp, by simp, ?_⟩
        · simp [get_performance_trend, hE, hsch2, hK]
        · intro r hr
          rw [hKnil] at hr
          cases hr
      · refine ⟨groupTrend (windowRows (filterTelecaller (get_all_reports raw) telecaller).rows
            (now - days * minutesPerDay) now), ?_, pairwise_lt_groupTrend_days _, ?_, ?_⟩
        · simp [get_performance_trend, hE, hsch2, hK, hschTC, hschND]
        · intro row hrow
          simp only [groupTrend] at hrow
          rcases List.mem_map.mp hrow with ⟨d, hd, rfl⟩
          have hd2 := mem_dedupL.mp (mem_sortBy.mp hd)
          rcases List.mem_map.mp hd2 with ⟨t, ht, rfl⟩
          rcases List.mem_filterMap.mp ht with ⟨r, hrk, hrd⟩
          refine ⟨⟨r, hrk, ?_⟩, rfl, rfl⟩
          simp [dayKey, hrd]
        · intro r hr
          have hrcopy := hr
          rw [windowRows, List.mem_filter] at hr
          rcases hr with ⟨hrin, hpred⟩
          rcases hdate : r.date with _ | t
          · simp only [hdate] at hpred
            cases hpred
          · have hd : dayOf t ∈ sortBy (fun a b => decide (a ≤ b))
                (dedupL (((windowRows (filterTelecaller (get_all_reports raw) telecaller).rows
                  (now - days * minutesPerDay) now).filterMap (fun r => r.date)).map dayOf)) :=
              mem_sortBy.mpr (mem_dedupL.mpr
                (List.mem_map_of_mem _ (List.mem_filterMap.mpr ⟨r, hrcopy, hdate⟩)))
            simp only [groupTrend]
            refine ⟨_, List.mem_map_of_mem _ hd, ?_⟩
            simp [dayKey, hdate]
  · intro hrows
    have hraw : raw.isEmpty = true := by simp [RawFrame.isEmpty, hrows]
    simp [get_performance_trend, get_all_reports, hraw, hrows, Frame.isEmpty]

/-- A dated snapshot with records on two distinct days (100 and 98) inside a
7-day window ending at timestamp 144000. -/
def trendSampleFrame : RawFrame :=
  ⟨⟨true, false, true, true, false, false, false, false, false⟩,
   [⟨some 144000, "A", some 2, some 1, none, none, none, "No", none⟩,
    ⟨some 141120, "B", some 4, some 2, none, none, none, "No", none⟩,
    ⟨some 141130, "B", some 6, some 3, none, none, none, "No", none⟩]⟩

/-- Witness for C5 at a concrete snapshot, window and clock instant. -/
theorem performance_trend_window_grouping_witness :
    (trendSampleFrame.schema.hasDate = true ∧ trendSampleFrame.schema.hasTotalCalls = true
      ∧ trendSampleFrame.schema.hasNewData = true)
      ∧ ((∃ l, get_performance_trend trendSampleFrame 7 none 144000 = .ok l
          ∧ (l.map (fun row => row.day)).Pairwise (fun a b => a < b)
          ∧ (∀ row ∈ l,
              (∃ r ∈ windowRows (filterTelecaller (get_all_reports trendSampleFrame) none).rows
                  (144000 - 7 * minutesPerDay) 144000, dayKey r = some row.day)
              ∧ row.totalCalls = (((windowRows (filterTelecaller (get_all_reports trendSampleFrame) none).rows
                  (144000 - 7 * minutesPerDay) 144000).filter (fun r => dayKey r == some row.day)).map
                    (fun r => r.totalCalls)).sum
              ∧ row.newData = (((windowRows (filterTelecaller (get_all_reports trendSampleFrame) none).rows
                  (144000 - 7 * minutesPerDay) 144000).filter (fun r => dayKey r == some row.day)).map
                    (fun r => r.newData)).sum)
          ∧ (∀ r ∈ windowRows (filterTelecaller (get_all_reports trendSampleFrame) none).rows
                (144000 - 7 * minutesPerDay) 144000,
              ∃ row ∈ l, dayKey r = some row.day))
        ∧ (trendSampleFrame.rows = [] → get_performance_trend trendSampleFrame 7 none 144000 = .ok [])) :=
  ⟨⟨rfl, rfl, rfl⟩, performance_trend_window_grouping trendSampleFrame 7 none 144000 rfl rfl rfl⟩

/-- A dated snapshot whose single record lies on day 200 (timestamp 288000),
in the future of the clock instant day 100 (timestamp 144000) used below. -/
def futureDatedFrame : RawFrame :=
  ⟨⟨true, false, true, true, false, false, false, false, false⟩,
   [⟨some 288000, "A", some 7, some 3, none, none, none, "No", none⟩]⟩

/-- C7 as frozen is false for the `week` (and likewise `month`) bucket: the
source applies only the lower date bound, so a record dated day 200 — after
today (day 100), hence outside the last 7 days inclusive — is still counted
by the `week` bucket (its 7 calls appear in `total_calls`), whereas
restricting to the claimed bounded window, the calendar days from today
minus 7 through today, would count nothing. -/
theorem week_bucket_keeps_future_dates :
    (∀ r ∈ futureDatedFrame.rows, r.date = some 288000)
      ∧ dayOf 144000 < dayOf 288000
      ∧ (get_dashboard_stats futureDatedFrame "week" none 144000).total_calls = 7
      ∧ (dashStatsOf ⟨futureDatedFrame.schema,
          (filterTelecaller (get_all_reports futureDatedFrame) none).rows.filter
            (fun r => match dayKey r with
              | some d => decide (dayOf 144000 - 7 ≤ d ∧ d ≤ dayOf 144000)
              | none => false)⟩).total_calls = 0 := by
  refine ⟨by decide, by decide, rfl, rfl⟩

end ReportDashboard
